import Mathlib

/-!
# Fitness-Tracker backend: shallow embedding and verification

A shallow embedding of the request pipeline of the Fitness-Tracker backend
(authentication middleware, rate limiting, request validation, authorization
guards, and the workout statistics aggregation), with theorems checking the
natural-language specification against it.

Conventions:
* MongoDB/Mongoose documents become Lean structures; a collection is a
  `List` of documents; `findById` is `List.find?` on the id field.
* BSON date values are `Int` milliseconds since the Unix epoch (they may be
  negative for pre-1970 dates).
* JavaScript string helpers used by the sources (`split(' ')`, `trim`,
  `toLowerCase`) are re-implemented structurally on `String.data` so that
  all definitions evaluate by `decide`/`rfl`.
* Fallible operations return `Except AppError α`; operations that also
  mutate a collection return the updated collection alongside.
-/

/-! ## JavaScript string helpers -/

/-- The characters `String.prototype.trim` strips (the common ASCII whitespace). -/
def jsWhitespace (c : Char) : Bool :=
  c == ' ' || c == '\t' || c == '\n' || c == '\r'

/-- JavaScript `s.trim()`: strip leading and trailing whitespace. -/
def jsTrim (s : String) : String :=
  ⟨((s.data.dropWhile jsWhitespace).reverse.dropWhile jsWhitespace).reverse⟩

/-- Helper for `jsSplitSpace`: walk the characters, cutting at each space. -/
def splitSpaceAux : List Char → List Char → List String
  | [], acc => [⟨acc.reverse⟩]
  | c :: cs, acc =>
    if c == ' ' then ⟨acc.reverse⟩ :: splitSpaceAux cs []
    else splitSpaceAux cs (c :: acc)

/-- JavaScript `s.split(' ')`: split on every single space character
(adjacent spaces yield empty segments, as in JavaScript). -/
def jsSplitSpace (s : String) : List String :=
  splitSpaceAux s.data []

/-- JavaScript `s.toLowerCase()` restricted to the ASCII mapping. -/
def jsToLower (s : String) : String :=
  ⟨s.data.map Char.toLower⟩

/-! ## Error taxonomy (src/backend/src/utils/errors.js)

Each error class carries an HTTP status code and a message; `ValidationError`
additionally carries the structured list of field errors.  The offending
value that express-validator attaches to each field error is not modelled
(only the field path and message are needed by the claims). -/

/-- A single field error produced by the validation middleware
(`handleValidationErrors` maps each express-validator error to
`{field, message, value}`; the value component is omitted). -/
structure FieldError where
  field : String
  message : String
deriving DecidableEq, Repr

/-- The operational error classes of utils/errors.js, tagged by kind. -/
inductive AppError where
  | badRequest (msg : String)
  | unauthorized (msg : String)
  | forbidden (msg : String)
  | notFound (msg : String)
  | conflict (msg : String)
  | validationFailed (msg : String) (errors : List FieldError)
deriving DecidableEq, Repr

/-- The HTTP status code each error class passes to `AppError`'s constructor. -/
def AppError.statusCode : AppError → Nat
  | .badRequest _ => 400
  | .unauthorized _ => 401
  | .forbidden _ => 403
  | .notFound _ => 404
  | .conflict _ => 409
  | .validationFailed _ _ => 422

/-! ## Workout data model (src/backend/src/entities/Workout.js) -/

/-- The `status` enum of the Workout schema. -/
inductive WorkoutStatus where
  | planned
  | inProgress
  | completed
  | cancelled
deriving DecidableEq, Repr

/-- A stored workout document.  Exercise references are MongoDB object-id
strings; `userId` and `id` are abstract identities; `date` is the stored
BSON timestamp in milliseconds since the Unix epoch. -/
structure StoredWorkout where
  id : Nat
  userId : Nat
  title : String
  description : String
  exercises : List String
  duration : Int
  caloriesBurned : Int
  date : Int
  status : WorkoutStatus
  notes : String
deriving DecidableEq, Repr

/-- An exercise document, reduced to the fields the workout use cases read
(`_id` and the `isActive` soft-delete flag). -/
structure ExerciseDoc where
  id : String
  isActive : Bool
deriving DecidableEq, Repr

/-- `Workout.findById`: the first document with the given id. -/
def findWorkout (db : List StoredWorkout) (workoutId : Nat) : Option StoredWorkout :=
  db.find? (fun w => w.id == workoutId)

/-- `Exercise.find({_id: {$in: ids}, isActive: true})` followed by the
length comparison in CreateWorkout.js / UpdateWorkout.js: the lookup
succeeds when the number of active matching documents equals the number of
requested ids. -/
def exercisesAllFound (exDb : List ExerciseDoc) (ids : List String) : Bool :=
  (exDb.filter (fun e => e.isActive && ids.contains e.id)).length == ids.length

/-! ## Statistics aggregation (src/backend/src/useCases/workouts/GetWorkoutStats.js) -/

/-- Result of JavaScript `new Date(x)` for a truthy `x`: either a valid
timestamp, or the Invalid Date (whose time value is NaN) when `x` is not
parseable as a date. -/
inductive JsDate where
  | invalid
  | valid (ms : Int)
deriving DecidableEq, Repr

/-- The timestamp a `JsDate` contributes to a BSON query: the driver's BSON
serializer converts a date via `Long.fromNumber(date.getTime())`, and
`Long.fromNumber` maps the NaN time value of an Invalid Date to 0, so an
invalid bound reaches the server as the Unix epoch.  (Mongoose does not cast
aggregation pipelines, so no schema cast intervenes.) -/
def JsDate.bsonMs : JsDate → Int
  | .invalid => 0
  | .valid ms => ms

/-- Milliseconds per day, the granularity of `$dateToString %Y-%m-%d`. -/
def msPerDay : Int := 86400000

/-- The `$dateToString {format: %Y-%m-%d}` grouping key of a timestamp,
represented as the (UTC) day index; lexicographic comparison of the
formatted strings agrees with integer comparison of day indices. -/
def dayKey (ms : Int) : Int := ms.fdiv msPerDay

/-- The `$match` stage of the stats pipeline: owner, `status: completed`,
and the optional `$gte`/`$lte` date bounds (each bound is added only when
the corresponding query value is truthy). -/
def matchStage (userId : Nat) (startDate endDate : Option JsDate)
    (w : StoredWorkout) : Bool :=
  w.userId == userId && w.status == .completed &&
    (match startDate with
     | none => true
     | some d => d.bsonMs ≤ w.date) &&
    (match endDate with
     | none => true
     | some d => w.date ≤ d.bsonMs)

/-- One `$group` output bucket: per-day totals. -/
structure DailyStat where
  date : Int
  totalDuration : Int
  totalCalories : Int
  workoutCount : Nat
deriving DecidableEq, Repr

/-- The second-pass totals computed by the `reduce` over the buckets. -/
structure StatsTotals where
  totalDuration : Int
  totalCalories : Int
  totalWorkouts : Nat
deriving DecidableEq, Repr

/-- The object returned by `getWorkoutStats`. -/
structure StatsResult where
  dailyStats : List DailyStat
  totals : StatsTotals
deriving DecidableEq, Repr

/-- Insert a key into an ascending list, keeping it ascending. -/
def insertKey (k : Int) : List Int → List Int
  | [] => [k]
  | x :: xs => if k ≤ x then k :: x :: xs else x :: insertKey k xs

/-- Ascending insertion sort on day keys; implements the `$sort {_id: 1}`
stage of the pipeline. -/
def sortKeys : List Int → List Int
  | [] => []
  | k :: ks => insertKey k (sortKeys ks)

/-- The `$group` bucket for day key `k` over the matched documents `ws`:
`totalDuration` and `totalCalories` are `$sum`s and `workoutCount` counts
the documents of that day. -/
def mkBucket (ws : List StoredWorkout) (k : Int) : DailyStat :=
  let g := ws.filter (fun w => dayKey w.date == k)
  { date := k
    totalDuration := (g.map (fun w => w.duration)).sum
    totalCalories := (g.map (fun w => w.caloriesBurned)).sum
    workoutCount := g.length }

/-- `$group` by day key followed by `$sort {_id: 1}`: one bucket per
distinct day key occurring among the matched documents, in ascending key
order. -/
def groupByDay (ws : List StoredWorkout) : List DailyStat :=
  (sortKeys ((ws.map (fun w => dayKey w.date)).dedup)).map (mkBucket ws)

/-- The accumulator step of the totals `reduce` in GetWorkoutStats.js. -/
def totalsStep (acc : StatsTotals) (s : DailyStat) : StatsTotals :=
  { totalDuration := acc.totalDuration + s.totalDuration
    totalCalories := acc.totalCalories + s.totalCalories
    totalWorkouts := acc.totalWorkouts + s.workoutCount }

/-- `getWorkoutStats(userId, {startDate, endDate})`: aggregate the user's
completed workouts into per-day buckets and overall totals.  A `none`
bound models an absent (or empty, hence falsy) query value, for which the
code adds no `$gte`/`$lte` condition at all. -/
def getWorkoutStats (db : List StoredWorkout) (userId : Nat)
    (startDate endDate : Option JsDate) : StatsResult :=
  let stats := groupByDay (db.filter (matchStage userId startDate endDate))
  { dailyStats := stats
    totals := stats.foldl totalsStep ⟨0, 0, 0⟩ }

/-! ## Mongoose save validation for workouts
(schema constraints of entities/Workout.js that `save()` enforces) -/

/-- The schema-level setters of entities/Workout.js: `trim: true` on
`title`, `description` and `notes`. -/
def normalizeWorkout (w : StoredWorkout) : StoredWorkout :=
  { w with
    title := jsTrim w.title
    description := jsTrim w.description
    notes := jsTrim w.notes }

/-- The validator messages `save()` can produce for a workout, one per
schema path (mongoose keys validation errors by path), in schema order. -/
def workoutSchemaErrors (w : StoredWorkout) : List String :=
  (if w.title = "" then ["Workout title is required"]
   else if w.title.length < 3 then ["Title must be at least 3 characters long"]
   else if 100 < w.title.length then ["Title must be less than 100 characters"]
   else []) ++
  (if 500 < w.description.length then ["Description must be less than 500 characters"] else []) ++
  (if w.duration < 0 then ["Duration cannot be negative"]
   else if 1440 < w.duration then ["Duration cannot exceed 24 hours (1440 minutes)"]
   else []) ++
  (if w.caloriesBurned < 0 then ["Calories burned cannot be negative"]
   else if 10000 < w.caloriesBurned then ["Calories burned seems unrealistic"]
   else []) ++
  (if 1000 < w.notes.length then ["Notes must be less than 1000 characters"] else [])

/-- `workout.save()`: apply the trim setters, then validate; a mongoose
`ValidationError` is mapped by the use cases to a `BadRequestError` whose
message joins the individual messages with a comma. -/
def saveWorkout (w : StoredWorkout) : Except AppError StoredWorkout :=
  let w := normalizeWorkout w
  match workoutSchemaErrors w with
  | [] => .ok w
  | msgs => .error (.badRequest (String.intercalate ", " msgs))

/-! ## Create Workout use case (src/backend/src/useCases/workouts/CreateWorkout.js) -/

/-- The raw `date` field of a workout request after the external ISO-8601
classification: either a parseable date (carrying its timestamp) or an
unparseable string. -/
inductive IsoDateInput where
  | iso (ms : Int)
  | notIso
deriving DecidableEq, Repr

/-- The body of a workout-creation request (routes pass `req.body` to the
use case).  A `status` value may be supplied by the client; CreateWorkout.js
never destructures it. -/
structure CreateWorkoutReq where
  title : Option String
  description : Option String
  exercises : Option (List String)
  duration : Option Int
  caloriesBurned : Option Int
  date : Option IsoDateInput
  status : Option WorkoutStatus
deriving DecidableEq, Repr

/-- `createWorkout(workoutData, userId)`: validate the referenced exercises,
build the document with `status: 'planned'` hard-coded and the `|| `
defaults of the source, and save it.  `newId` stands for the generated
`_id`; `now` is the clock used for `new Date()` when no date is supplied.
An unparseable supplied date makes the mongoose save fail its cast, which
the catch-all maps to `BadRequestError('Failed to create workout')`. -/
def createWorkout (exDb : List ExerciseDoc) (db : List StoredWorkout)
    (workoutData : CreateWorkoutReq) (userId : Nat) (newId : Nat) (now : Int) :
    Except AppError StoredWorkout × List StoredWorkout :=
  let ids := workoutData.exercises.getD []
  if ids ≠ [] && !(exercisesAllFound exDb ids) then
    (.error (.notFound "One or more exercises not found"), db)
  else
    match workoutData.date with
    | some .notIso => (.error (.badRequest "Failed to create workout"), db)
    | d =>
      let w : StoredWorkout :=
        { id := newId
          userId := userId
          title := (workoutData.title.getD "")
          description := (workoutData.description.getD "")
          exercises := ids
          duration := (workoutData.duration.getD 0)
          caloriesBurned := (workoutData.caloriesBurned.getD 0)
          date := match d with
                  | some (.iso ms) => ms
                  | _ => now
          status := .planned
          notes := "" }
      match saveWorkout w with
      | .ok w => (.ok w, db ++ [w])
      | .error e => (.error e, db)

/-! ## Update / Delete Workout use cases
(src/backend/src/useCases/workouts/UpdateWorkout.js, DeleteWorkout.js) -/

/-- The body of a workout-update request: every field optional;
`undefined` fields are left untouched. -/
structure UpdateWorkoutData where
  title : Option String
  description : Option String
  exercises : Option (List String)
  duration : Option Int
  caloriesBurned : Option Int
  date : Option Int
  status : Option WorkoutStatus
  notes : Option String
deriving DecidableEq, Repr

/-- The field-by-field `if (updateData.x !== undefined) workout.x = ...`
block of UpdateWorkout.js. -/
def applyUpdate (w : StoredWorkout) (u : UpdateWorkoutData) : StoredWorkout :=
  { w with
    title := u.title.getD w.title
    description := u.description.getD w.description
    exercises := u.exercises.getD w.exercises
    duration := u.duration.getD w.duration
    caloriesBurned := u.caloriesBurned.getD w.caloriesBurned
    date := u.date.getD w.date
    status := u.status.getD w.status
    notes := u.notes.getD w.notes }

/-- Replace the document with id `i` by `w` in the collection (the effect
of `workout.save()` on an existing document). -/
def replaceWorkout (db : List StoredWorkout) (i : Nat) (w : StoredWorkout) :
    List StoredWorkout :=
  db.map (fun x => if x.id == i then w else x)

/-- `updateWorkout(workoutId, updateData, userId)`: load, check existence,
check ownership, validate any referenced exercises, apply the updates and
save.  Returns the response value together with the resulting collection. -/
def updateWorkout (exDb : List ExerciseDoc) (db : List StoredWorkout)
    (workoutId : Nat) (updateData : UpdateWorkoutData) (userId : Nat) :
    Except AppError StoredWorkout × List StoredWorkout :=
  match findWorkout db workoutId with
  | none => (.error (.notFound "Workout not found"), db)
  | some w =>
    if w.userId != userId then
      (.error (.forbidden "Unauthorized to update this workout"), db)
    else if (updateData.exercises.getD []) ≠ [] &&
        !(exercisesAllFound exDb (updateData.exercises.getD [])) then
      (.error (.notFound "One or more exercises not found"), db)
    else
      match saveWorkout (applyUpdate w updateData) with
      | .ok w2 => (.ok w2, replaceWorkout db workoutId w2)
      | .error e => (.error e, db)

/-- `deleteWorkout(workoutId, userId)`: load, check existence, check
ownership, then `deleteOne()`. -/
def deleteWorkout (db : List StoredWorkout) (workoutId : Nat) (userId : Nat) :
    Except AppError Unit × List StoredWorkout :=
  match findWorkout db workoutId with
  | none => (.error (.notFound "Workout not found"), db)
  | some w =>
    if w.userId != userId then
      (.error (.forbidden "Unauthorized to delete this workout"), db)
    else
      (.ok (), db.filter (fun x => x.id != w.id))

/-! ## Request validation middleware (middleware/validation.js)

Each express-validator chain is a function from the request body to the
(possibly empty) list of field errors it contributes; `validationResult`
collects the chains' errors in chain order, and every chain keeps running
after a failed one (no `bail()` is used), so the list carries one entry per
violated rule. -/

/-- The `body('title').trim().isLength({min: 3, max: 100})` chain: an absent
value is coerced to the empty string by the string validator. -/
def titleRuleErrors (title : Option String) : List FieldError :=
  let t := jsTrim (title.getD "")
  if t.length < 3 || 100 < t.length then
    [⟨"title", "Title must be between 3 and 100 characters"⟩]
  else []

/-- The `body('description').optional().trim().isLength({max: 500})` chain. -/
def descriptionRuleErrors (description : Option String) : List FieldError :=
  match description with
  | none => []
  | some d =>
    if 500 < (jsTrim d).length then
      [⟨"description", "Description must be less than 500 characters"⟩]
    else []

/-- The message of the TypeError V8 raises when the `custom` exercises rule
calls `.every` on an absent value; express-validator records the thrown
message as the field error message (rendered here without the inner quote
marks around the property name). -/
def undefinedEveryMessage : String :=
  "Cannot read properties of undefined (reading every)"

/-- The `body('exercises')` chain: `isArray({min: 1})` plus the custom
24-character object-id check.  Both validators run even when the first
fails; on an absent value the custom callback throws (see
`undefinedEveryMessage`). -/
def exercisesRuleErrors (exercises : Option (List String)) : List FieldError :=
  match exercises with
  | none =>
    [⟨"exercises", "At least one exercise is required"⟩,
     ⟨"exercises", undefinedEveryMessage⟩]
  | some es =>
    (if es.length < 1 then [⟨"exercises", "At least one exercise is required"⟩] else []) ++
    (if es.all (fun i => i.length == 24) then []
     else [⟨"exercises", "All exercise IDs must be valid MongoDB ObjectIds"⟩])

/-- The `body('duration').optional().isInt({min: 0, max: 1440})` chain. -/
def durationRuleErrors (duration : Option Int) : List FieldError :=
  match duration with
  | none => []
  | some d =>
    if d < 0 || 1440 < d then
      [⟨"duration", "Duration must be between 0 and 1440 minutes"⟩]
    else []

/-- The `body('caloriesBurned').optional().isInt({min: 0, max: 10000})` chain. -/
def caloriesRuleErrors (caloriesBurned : Option Int) : List FieldError :=
  match caloriesBurned with
  | none => []
  | some c =>
    if c < 0 || 10000 < c then
      [⟨"caloriesBurned", "Calories burned must be between 0 and 10000"⟩]
    else []

/-- The `body('date').optional().isISO8601()` chain. -/
def dateRuleErrors (date : Option IsoDateInput) : List FieldError :=
  match date with
  | some .notIso => [⟨"date", "Date must be a valid ISO 8601 date"⟩]
  | _ => []

/-- `validateCreateWorkout`: all six chains, in source order. -/
def validateCreateWorkout (r : CreateWorkoutReq) : List FieldError :=
  titleRuleErrors r.title ++ descriptionRuleErrors r.description ++
  exercisesRuleErrors r.exercises ++ durationRuleErrors r.duration ++
  caloriesRuleErrors r.caloriesBurned ++ dateRuleErrors r.date

/-- `handleValidationErrors`: throw `ValidationError('Validation failed',
errorMessages)` when any chain reported an error, otherwise fall through. -/
def handleValidationErrors (errors : List FieldError) : Except AppError Unit :=
  match errors with
  | [] => .ok ()
  | es => .error (.validationFailed "Validation failed" es)

/-- The `POST /api/workouts` route: `validateCreateWorkout` then
`handleValidationErrors` then the `createWorkout` use case.  A validation
failure reaches the client before the handler runs, so the collection is
returned untouched. -/
def postCreateWorkout (exDb : List ExerciseDoc) (db : List StoredWorkout)
    (body : CreateWorkoutReq) (userId : Nat) (newId : Nat) (now : Int) :
    Except AppError StoredWorkout × List StoredWorkout :=
  match handleValidationErrors (validateCreateWorkout body) with
  | .error e => (.error e, db)
  | .ok () => createWorkout exDb db body userId newId now

/-! ## JWT verification and authentication middleware
(src/unnamed/part_004; the `jsonwebtoken` library itself is external) -/

/-- A token string as the external JWT library interprets it: either not a
structurally valid JWT, or a well-formed token recording which secret
signed it, the subject id claim `userId`, the issue time `iat`, and the
TTL given as `expiresIn` (so the embedded expiry is `iat + ttl`). -/
inductive JwtToken where
  | malformed
  | wellFormed (secret : String) (userId : Nat) (iat : Int) (ttl : Int)
deriving DecidableEq, Repr

/-- Modelled from the spec: the verifier of the external `jsonwebtoken`
library (§4.2 of the spec).  A malformed token or a signature that does not
verify against `secret` raises `JsonWebTokenError`; a token whose embedded
expiry has been reached (current time ≥ issue + TTL) raises
`TokenExpiredError`; otherwise the decoded payload is returned. -/
inductive JwtOutcome where
  | jsonWebTokenError
  | tokenExpiredError
  | ok (userId : Nat)
deriving DecidableEq, Repr

/-- Modelled from the spec: `jwt.verify(token, secret)` at clock time `now`
(signature checked before expiry, as in the library). -/
def jwtVerify (tok : JwtToken) (secret : String) (now : Int) : JwtOutcome :=
  match tok with
  | .malformed => .jsonWebTokenError
  | .wellFormed s uid iat ttl =>
    if s ≠ secret then .jsonWebTokenError
    else if iat + ttl ≤ now then .tokenExpiredError
    else .ok uid

/-- `authMiddleware`: extract the bearer token from the `Authorization`
header, verify it, and attach the decoded subject id to the request.
`decode` is the ambient interpretation of token strings (the inverse of the
external library's encoding); every failure is an `UnauthorizedError` with
the terse message of the source. -/
def authMiddleware (decode : String → JwtToken) (secret : String) (now : Int)
    (header : Option String) : Except AppError Nat :=
  match header with
  | none => .error (.unauthorized "No token provided, authorization denied")
  | some h =>
    let parts := jsSplitSpace h
    if parts.length != 2 || parts.headD "" != "Bearer" then
      .error (.unauthorized "Invalid token format. Use: Bearer <token>")
    else
      let token := (parts.getD 1 "")
      if token = "" then .error (.unauthorized "No token provided")
      else
        match jwtVerify (decode token) secret now with
        | .tokenExpiredError => .error (.unauthorized "Token has expired")
        | .jsonWebTokenError => .error (.unauthorized "Invalid token")
        | .ok uid => .ok uid

/-! ## Rate limiting (src/backend/src/middleware/security.js)

The `express-rate-limit` library is external; its fixed-window counter is
modelled from the spec (§4.3): each request increments the client's counter
for the current window and is denied once the incremented count exceeds the
policy's maximum; a denied request short-circuits before the downstream
operation runs; with `skipSuccessfulRequests` a request whose response
reports success is un-counted, so only failed attempts consume budget. -/

/-- A rate-limit policy: window length and ceiling. -/
structure RateLimitPolicy where
  windowMs : Int
  maxRequests : Nat
deriving DecidableEq, Repr

/-- The stricter authentication policy of middleware/security.js:
15 minutes, 5 requests, `skipSuccessfulRequests: true`. -/
def authRateLimiterPolicy : RateLimitPolicy :=
  { windowMs := 15 * 60 * 1000, maxRequests := 5 }

/-- Per-client limiter state: the start of the current window and the
counted hits within it. -/
structure RateLimitState where
  windowStart : Int
  count : Nat
deriving DecidableEq, Repr

/-- What happened to one attempt: whether the limiter let it through,
whether the underlying auth operation was executed at all, and whether that
operation succeeded. -/
structure AttemptOutcome where
  permitted : Bool
  executed : Bool
  succeeded : Bool
deriving DecidableEq, Repr

/-- One authentication request at time `t` against the limiter:
roll the window if it has elapsed, count the hit, deny when over the
ceiling (the operation is then never executed), and un-count the hit when
the executed operation succeeds (`skipSuccessfulRequests`). -/
def rateLimitStep (p : RateLimitPolicy) (st : RateLimitState) (t : Int)
    (wouldSucceed : Bool) : AttemptOutcome × RateLimitState :=
  let st :=
    if st.windowStart + p.windowMs ≤ t then
      { windowStart := st.windowStart + p.windowMs * ((t - st.windowStart).fdiv p.windowMs)
        count := 0 }
    else st
  let hits := st.count + 1
  if p.maxRequests < hits then
    (⟨false, false, false⟩, { st with count := hits })
  else if wouldSucceed then
    (⟨true, true, true⟩, st)
  else
    (⟨true, true, false⟩, { st with count := hits })

/-- A sequence of authentication attempts by one client, each given by its
arrival time and whether the underlying operation would succeed if run. -/
def runAuthAttempts (p : RateLimitPolicy) (st : RateLimitState) :
    List (Int × Bool) → List AttemptOutcome × RateLimitState
  | [] => ([], st)
  | (t, s) :: rest =>
    let (o, st2) := rateLimitStep p st t s
    let (os, st3) := runAuthAttempts p st2 rest
    (o :: os, st3)

/-! ## Configuration loading and validation (src/unnamed/part_002) -/

/-- The environment variables the JWT configuration reads.  `none` models
an unset (or empty, hence falsy) variable. -/
structure EnvVars where
  nodeEnv : Option String
  jwtSecret : Option String
  jwtRefreshSecret : Option String
  mongodbUri : Option String
deriving DecidableEq, Repr

/-- The development fallback for `JWT_SECRET`. -/
def developmentSecretDefault : String :=
  "development-secret-change-in-production"

/-- The development fallback for `JWT_REFRESH_SECRET`. -/
def developmentRefreshSecretDefault : String :=
  "development-refresh-secret-change-in-production"

/-- The `config.jwt` secrets after the defaulting IIFEs: an unset secret in
production throws immediately; outside production it falls back to the
development default. -/
structure JwtConfig where
  secret : String
  refreshSecret : String
deriving DecidableEq, Repr

/-- Building `config.jwt` (the two defaulting IIFEs of the config module). -/
def loadJwtConfig (e : EnvVars) : Except String JwtConfig := do
  let secret ←
    match e.jwtSecret with
    | some s => pure s
    | none =>
      if e.nodeEnv == some "production" then
        Except.error "JWT_SECRET must be set in production"
      else pure developmentSecretDefault
  let refreshSecret ←
    match e.jwtRefreshSecret with
    | some s => pure s
    | none =>
      if e.nodeEnv == some "production" then
        Except.error "JWT_REFRESH_SECRET must be set in production"
      else pure developmentRefreshSecretDefault
  pure ⟨secret, refreshSecret⟩

/-- `config.env = process.env.NODE_ENV || 'development'`. -/
def configEnv (e : EnvVars) : String := e.nodeEnv.getD "development"

/-- `validateConfig()`: in production, require `JWT_SECRET`,
`JWT_REFRESH_SECRET` and `MONGODB_URI` to be set, and reject an access
secret equal to its development default. -/
def validateConfig (e : EnvVars) (jwt : JwtConfig) : Except String Unit :=
  if configEnv e = "production" then
    let missing :=
      (if e.jwtSecret.isNone then ["JWT_SECRET"] else []) ++
      (if e.jwtRefreshSecret.isNone then ["JWT_REFRESH_SECRET"] else []) ++
      (if e.mongodbUri.isNone then ["MONGODB_URI"] else [])
    if missing ≠ [] then
      .error ("Missing required environment variables in production: " ++
        String.intercalate ", " missing)
    else if jwt.secret = developmentSecretDefault then
      .error "JWT_SECRET must be changed from default in production"
    else .ok ()
  else .ok ()

/-- Loading the config module: build `config` (the IIFEs run here), then
`validateConfig()` runs at the end of the module. -/
def startupConfig (e : EnvVars) : Except String JwtConfig := do
  let jwt ← loadJwtConfig e
  validateConfig e jwt
  pure jwt

/-! ## Challenge join (src/backend/routes/social.js and the Challenge
entity of src/unnamed/part_003) -/

/-- The Challenge documents of routes/social.js. -/
structure SocialChallenge where
  id : Nat
  title : String
  description : String
  participants : List Nat
deriving DecidableEq, Repr

/-- The wire response of the join-challenge route: HTTP status and message. -/
structure JoinResponse where
  status : Nat
  message : String
deriving DecidableEq, Repr

/-- `Challenge.findById`. -/
def findChallenge (db : List SocialChallenge) (challengeId : Nat) :
    Option SocialChallenge :=
  db.find? (fun c => c.id == challengeId)

/-- `POST /api/social/challenges` (join a challenge): missing id → 400,
unknown challenge → 404, already a participant → 400
`'User already joined this challenge'`, otherwise push the user and save
(200).  Returns the response and the resulting collection. -/
def joinChallenge (db : List SocialChallenge) (challengeId : Option Nat)
    (userId : Nat) : JoinResponse × List SocialChallenge :=
  match challengeId with
  | none => (⟨400, "Challenge ID is required"⟩, db)
  | some cid =>
    match findChallenge db cid with
    | none => (⟨404, "Challenge not found"⟩, db)
    | some c =>
      if c.participants.contains userId then
        (⟨400, "User already joined this challenge"⟩, db)
      else
        let c2 := { c with participants := c.participants ++ [userId] }
        (⟨200, "Joined challenge successfully"⟩,
         db.map (fun x => if x.id == cid then c2 else x))

/-- `ChallengeSchema.methods.addParticipant` of the Challenge entity:
returns `false` and leaves the list untouched when the user is already a
participant, otherwise pushes and returns `true`. -/
def addParticipant (participants : List Nat) (userId : Nat) :
    Bool × List Nat :=
  if participants.contains userId then (false, participants)
  else (true, participants ++ [userId])

/-! ## User identity, serialization and the auth use cases
(entities/User.js, useCases/auth/LoginUser.js, RegisterUser.js) -/

/-- A user document with the schema paths of entities/User.js that the
claims touch (`profile` collapsed to its `name`; `version` is `__v`). -/
structure UserDoc where
  id : Nat
  username : String
  email : String
  password : String
  profileName : String
  isActive : Bool
  lastLogin : Option Int
  createdAt : Int
  version : Nat
deriving DecidableEq, Repr

/-- Rendering of the optional last-login timestamp in a serialized object. -/
def renderLastLogin : Option Int → String
  | none => "null"
  | some t => toString t

/-- The plain object mongoose derives from a user document before the
`toJSON` transform runs: every schema path — the password hash included —
plus the internal `__v` key.  Values are rendered as strings; the claims
only inspect the key set. -/
def userRawObject (u : UserDoc) : List (String × String) :=
  [("_id", toString u.id),
   ("username", u.username),
   ("email", u.email),
   ("password", u.password),
   ("profile", u.profileName),
   ("isActive", toString u.isActive),
   ("lastLogin", renderLastLogin u.lastLogin),
   ("createdAt", toString u.createdAt),
   ("__v", toString u.version)]

/-- The `toJSON` transform of the User schema:
`delete ret.password; delete ret.__v`. -/
def userToJSON (u : UserDoc) : List (String × String) :=
  (userRawObject u).filter (fun kv => kv.fst != "password" && kv.fst != "__v")

/-- `User.findByEmailOrUsername(identifier)`: match on lowercased email or
exact username. -/
def findByEmailOrUsername (db : List UserDoc) (identifier : String) :
    Option UserDoc :=
  db.find? (fun u => u.email == jsToLower identifier || u.username == identifier)

/-- The `user` object literal the login use case returns (LoginUser.js
lines 62–71): id, username, email, profile and lastLogin — nothing else. -/
def loginUserObject (u : UserDoc) : List (String × String) :=
  [("id", toString u.id),
   ("username", u.username),
   ("email", u.email),
   ("profile", u.profileName),
   ("lastLogin", renderLastLogin u.lastLogin)]

/-- `loginUser(credentials)`: find by username/email (with `+password`
selected), reject unknown or deactivated users and wrong passwords with
`UnauthorizedError`, stamp `lastLogin`, and return the public user object
with a freshly signed access token.  `hashCheck` is the external
`bcrypt.compare`; `secret`/`ttl`/`now` parameterize the `jwt.sign` call. -/
def loginUser (db : List UserDoc) (hashCheck : String → String → Bool)
    (secret : String) (ttl : Int) (now : Int) (username password : String) :
    Except AppError (List (String × String) × JwtToken) :=
  match findByEmailOrUsername db username with
  | none => .error (.unauthorized "Invalid credentials")
  | some user =>
    if !user.isActive then .error (.unauthorized "Account is deactivated")
    else if !(hashCheck password user.password) then
      .error (.unauthorized "Invalid credentials")
    else
      let user := { user with lastLogin := some now }
      .ok (loginUserObject user, .wellFormed secret user.id now ttl)

/-- The `user` object literal the registration use case returns
(RegisterUser.js lines 65–74). -/
def registerUserObject (u : UserDoc) : List (String × String) :=
  [("id", toString u.id),
   ("username", u.username),
   ("email", u.email),
   ("profile", u.profileName),
   ("createdAt", toString u.createdAt)]

/-- `registerUser(userData)`: reject an existing username or email with
`ConflictError`, create the user (the pre-save hook hashes the password via
the external `hash`), and return the public user object with a token. -/
def registerUser (db : List UserDoc) (hash : String → String)
    (secret : String) (ttl : Int) (now : Int) (newId : Nat)
    (username email password : String) :
    Except AppError (List (String × String) × JwtToken × List UserDoc) :=
  if db.any (fun u => u.username == username) then
    .error (.conflict "Username already exists")
  else if db.any (fun u => u.email == jsToLower email) then
    .error (.conflict "Email already exists")
  else
    let user : UserDoc :=
      { id := newId
        username := username
        email := jsToLower email
        password := hash password
        profileName := ""
        isActive := true
        lastLogin := none
        createdAt := now
        version := 0 }
    .ok (registerUserObject user, .wellFormed secret user.id now ttl, db ++ [user])

/-! ## Statement abbreviations and concrete documents used by witnesses -/

/-- The records the spec's aggregation contract ranges over: completed
records owned by the subject. -/
def completedRecords (db : List StoredWorkout) (userId : Nat) : List StoredWorkout :=
  db.filter (fun w => w.userId == userId && w.status == WorkoutStatus.completed)

/-- The subject's completed records falling on calendar day `d`. -/
def recordsOnDay (comp : List StoredWorkout) (d : Int) : List StoredWorkout :=
  comp.filter (fun w => dayKey w.date == d)

/-- Example document: a completed workout of user 7 on day 0. -/
def wCompletedA : StoredWorkout :=
  ⟨1, 7, "Morning Run", "", [], 30, 300, 0, .completed, ""⟩

/-- Example document: a second completed workout of user 7 on day 0. -/
def wCompletedB : StoredWorkout :=
  ⟨2, 7, "Evening Row", "", [], 20, 200, 3600000, .completed, ""⟩

/-- Example document: a planned workout of user 7 on day 0. -/
def wPlannedC : StoredWorkout :=
  ⟨3, 7, "Stretching", "", [], 10, 100, 7200000, .planned, ""⟩

/-- Example collection for the aggregation and mutation witnesses. -/
def exampleWorkouts : List StoredWorkout :=
  [wCompletedA, wCompletedB, wPlannedC]

/-- A completed workout dated one day before the Unix epoch. -/
def preEpochWorkout : StoredWorkout :=
  ⟨4, 7, "Old Run", "", [], 30, 300, -86400000, .completed, ""⟩

/-- Example challenge collection: user 7 already joined challenge 1. -/
def exampleChallenges : List SocialChallenge :=
  [⟨1, "10k Steps", "", [7]⟩]

/-- Example token-string interpretation for the middleware witness. -/
def exampleDecode : String → JwtToken :=
  fun s => if s == "tok1" then .wellFormed "access-secret" 42 100 60 else .malformed

/-- A 24-character object-id string. -/
def exampleObjectId : String := "aaaaaaaaaaaaaaaaaaaaaaaa"

/-- Example exercise collection containing `exampleObjectId`, active. -/
def exampleExerciseDb : List ExerciseDoc := [⟨exampleObjectId, true⟩]

/-- A fully valid creation request that nevertheless asks for status
`completed`. -/
def exampleCreateReq : CreateWorkoutReq :=
  { title := some "Morning Run"
    description := none
    exercises := some [exampleObjectId]
    duration := some 45
    caloriesBurned := some 400
    date := none
    status := some .completed }

/-- Example user document. -/
def exampleUser : UserDoc :=
  ⟨1, "alice", "alice@example.com", "hashed-pw-1", "Alice", true, none, 0, 0⟩

/-- The workout `createWorkout` produces from `exampleCreateReq` (status
forced to planned). -/
def createdExampleWorkout : StoredWorkout :=
  { id := 99, userId := 7, title := "Morning Run", description := "",
    exercises := [exampleObjectId], duration := 45, caloriesBurned := 400,
    date := 0, status := .planned, notes := "" }

/-- An update request touching nothing. -/
def exampleEmptyUpdate : UpdateWorkoutData :=
  ⟨none, none, none, none, none, none, none, none⟩

/-- Example challenge collection with no participants yet. -/
def exampleFreshChallenges : List SocialChallenge :=
  [⟨2, "Plank Month", "", []⟩]

/-! ## Helper lemmas -/

theorem insertKey_perm (k : Int) (l : List Int) :
    List.Perm (insertKey k l) (k :: l) := by
  induction l with
  | nil => simp [insertKey]
  | cons x xs ih =>
    simp only [insertKey]
    split
    · exact List.Perm.refl _
    · exact (ih.cons x).trans (List.Perm.swap k x xs)

theorem sortKeys_perm (l : List Int) : List.Perm (sortKeys l) l := by
  induction l with
  | nil => simp [sortKeys]
  | cons k ks ih => exact (insertKey_perm k (sortKeys ks)).trans (ih.cons k)

theorem insertKey_pairwise {k : Int} {l : List Int}
    (h : l.Pairwise (· ≤ ·)) : (insertKey k l).Pairwise (· ≤ ·) := by
  induction l with
  | nil => simp [insertKey]
  | cons x xs ih =>
    rcases List.pairwise_cons.mp h with ⟨hx, hxs⟩
    simp only [insertKey]
    split
    · rename_i hkx
      refine List.pairwise_cons.mpr ⟨?_, h⟩
      intro b hb
      rcases List.mem_cons.mp hb with rfl | hb
      · exact hkx
      · exact le_trans hkx (hx b hb)
    · rename_i hkx
      refine List.pairwise_cons.mpr ⟨?_, ih hxs⟩
      intro b hb
      rcases List.mem_cons.mp ((insertKey_perm k xs).mem_iff.mp hb) with rfl | h1
      · exact le_of_not_le hkx
      · exact hx b h1

theorem sortKeys_pairwise (l : List Int) : (sortKeys l).Pairwise (· ≤ ·) := by
  induction l with
  | nil => simp [sortKeys]
  | cons k ks ih => exact insertKey_pairwise ih

theorem mkBucket_date (ws : List StoredWorkout) (k : Int) :
    (mkBucket ws k).date = k := rfl

theorem groupByDay_dates (ws : List StoredWorkout) :
    (groupByDay ws).map DailyStat.date =
      sortKeys ((ws.map (fun w => dayKey w.date)).dedup) := by
  simp [groupByDay, List.map_map, Function.comp_def, mkBucket_date]

theorem foldl_totalsStep (l : List DailyStat) (acc : StatsTotals) :
    l.foldl totalsStep acc =
      ⟨acc.totalDuration + (l.map DailyStat.totalDuration).sum,
       acc.totalCalories + (l.map DailyStat.totalCalories).sum,
       acc.totalWorkouts + (l.map DailyStat.workoutCount).sum⟩ := by
  induction l generalizing acc with
  | nil => simp
  | cons s ss ih => simp [List.foldl_cons, ih, totalsStep, add_assoc]

theorem filter_matchStage_none_none (db : List StoredWorkout) (userId : Nat) :
    db.filter (matchStage userId none none) = completedRecords db userId := by
  unfold completedRecords
  apply List.filter_congr
  intro w _
  simp [matchStage]

theorem groupByDay_mem_dates (ws : List StoredWorkout) (d : Int) :
    d ∈ (groupByDay ws).map DailyStat.date ↔ ∃ w ∈ ws, dayKey w.date = d := by
  rw [groupByDay_dates, (sortKeys_perm _).mem_iff, List.mem_dedup, List.mem_map]

/-! ## Claim theorems -/

/-- Claim C1: for every subject and collection, `getWorkoutStats` (with no
date range) returns exactly one bucket per calendar date having at least
one completed record owned by the subject; within each bucket duration and
calories are summed and the count equals the number of such records;
other statuses and other owners contribute nothing; buckets are in strictly
ascending date order; and the totals are the componentwise sums over the
buckets (all zero when there are none). -/
theorem getWorkoutStats_buckets_spec (db : List StoredWorkout) (userId : Nat) :
    (∀ d : Int,
      (∃ b ∈ (getWorkoutStats db userId none none).dailyStats, b.date = d) ↔
        ∃ w ∈ completedRecords db userId, dayKey w.date = d) ∧
    ((getWorkoutStats db userId none none).dailyStats.map DailyStat.date).Nodup ∧
    ((getWorkoutStats db userId none none).dailyStats.map DailyStat.date).Pairwise (· < ·) ∧
    (∀ b ∈ (getWorkoutStats db userId none none).dailyStats,
      b.totalDuration =
        ((recordsOnDay (completedRecords db userId) b.date).map (fun w => w.duration)).sum ∧
      b.totalCalories =
        ((recordsOnDay (completedRecords db userId) b.date).map (fun w => w.caloriesBurned)).sum ∧
      b.workoutCount = (recordsOnDay (completedRecords db userId) b.date).length ∧
      recordsOnDay (completedRecords db userId) b.date ≠ []) ∧
    (getWorkoutStats db userId none none).totals.totalDuration =
      ((getWorkoutStats db userId none none).dailyStats.map DailyStat.totalDuration).sum ∧
    (getWorkoutStats db userId none none).totals.totalCalories =
      ((getWorkoutStats db userId none none).dailyStats.map DailyStat.totalCalories).sum ∧
    (getWorkoutStats db userId none none).totals.totalWorkouts =
      ((getWorkoutStats db userId none none).dailyStats.map DailyStat.workoutCount).sum ∧
    ((getWorkoutStats db userId none none).dailyStats = [] →
      (getWorkoutStats db userId none none).totals = ⟨0, 0, 0⟩) := by
  have hds : (getWorkoutStats db userId none none).dailyStats =
      groupByDay (completedRecords db userId) := by
    simp [getWorkoutStats, filter_matchStage_none_none]
  have htot : (getWorkoutStats db userId none none).totals =
      (groupByDay (completedRecords db userId)).foldl totalsStep ⟨0, 0, 0⟩ := by
    simp [getWorkoutStats, filter_matchStage_none_none]
  have hnodup : ((groupByDay (completedRecords db userId)).map DailyStat.date).Nodup := by
    rw [groupByDay_dates]
    exact ((sortKeys_perm _).nodup_iff).mpr (List.nodup_dedup _)
  refine ⟨?_, ?_, ?_, ?_, ?_, ?_, ?_, ?_⟩
  · intro d
    rw [hds]
    constructor
    · rintro ⟨b, hb, rfl⟩
      exact (groupByDay_mem_dates _ _).mp (List.mem_map_of_mem DailyStat.date hb)
    · intro hw
      rcases (groupByDay_mem_dates (completedRecords db userId) d).mpr hw with hmem
      rcases List.mem_map.mp hmem with ⟨b, hb, hbd⟩
      exact ⟨b, hb, hbd⟩
  · rw [hds]; exact hnodup
  · rw [hds]
    have hle := sortKeys_pairwise ((( completedRecords db userId).map (fun w => dayKey w.date)).dedup)
    have hne : (sortKeys (((completedRecords db userId).map (fun w => dayKey w.date)).dedup)).Pairwise (· ≠ ·) := by
      rw [groupByDay_dates] at hnodup
      exact hnodup
    rw [groupByDay_dates]
    exact (hle.and hne).imp (fun h => lt_of_le_of_ne h.1 h.2)
  · rw [hds]
    intro b hb
    rcases List.mem_map.mp hb with ⟨k, hk, rfl⟩
    have hkmem : ∃ w ∈ completedRecords db userId, dayKey w.date = k := by
      have : k ∈ (groupByDay (completedRecords db userId)).map DailyStat.date := by
        rw [groupByDay_dates]
        exact hk
      exact (groupByDay_mem_dates _ _).mp this
    refine ⟨by simp [mkBucket, recordsOnDay, mkBucket_date],
      by simp [mkBucket, recordsOnDay, mkBucket_date],
      by simp [mkBucket, recordsOnDay, mkBucket_date], ?_⟩
    rcases hkmem with ⟨w, hw, hwd⟩
    have : w ∈ recordsOnDay (completedRecords db userId) (mkBucket (completedRecords db userId) k).date := by
      rw [mkBucket_date]
      exact List.mem_filter.mpr ⟨hw, by simp [hwd]⟩
    exact List.ne_nil_of_mem this
  · rw [htot, foldl_totalsStep, hds]; simp
  · rw [htot, foldl_totalsStep, hds]; simp
  · rw [htot, foldl_totalsStep, hds]; simp
  · intro h
    rw [hds] at h
    rw [htot, h]
    rfl

/-- Witness for C1: on the example collection (two completed workouts and
one planned workout of user 7, all on day 0) the statistics contain a
bucket for day 0. -/
theorem getWorkoutStats_buckets_spec_witness :
    ∃ b ∈ (getWorkoutStats exampleWorkouts 7 none none).dailyStats, b.date = 0 :=
  ((getWorkoutStats_buckets_spec exampleWorkouts 7).1 0).mpr
    ⟨wCompletedA, by decide, by decide⟩

/-- Claim C2: for update and delete, a nonexistent target id yields
`NotFound` (for any subject), an existing target owned by someone else
yields `Forbidden` with the collection unchanged, and for the owner the
guards pass: the operation never returns `Forbidden`, and never the
`NotFound` of the existence check. -/
theorem workoutMutation_auth_order (exDb : List ExerciseDoc)
    (db : List StoredWorkout) (workoutId : Nat) (u : UpdateWorkoutData)
    (userId : Nat) :
    (findWorkout db workoutId = none →
      updateWorkout exDb db workoutId u userId =
        (.error (.notFound "Workout not found"), db) ∧
      deleteWorkout db workoutId userId =
        (.error (.notFound "Workout not found"), db)) ∧
    (∀ w, findWorkout db workoutId = some w → w.userId ≠ userId →
      updateWorkout exDb db workoutId u userId =
        (.error (.forbidden "Unauthorized to update this workout"), db) ∧
      deleteWorkout db workoutId userId =
        (.error (.forbidden "Unauthorized to delete this workout"), db)) ∧
    (∀ w, findWorkout db workoutId = some w → w.userId = userId →
      (∀ e, (updateWorkout exDb db workoutId u userId).1 = .error e →
        e ≠ .forbidden "Unauthorized to update this workout" ∧
        e ≠ .notFound "Workout not found") ∧
      (deleteWorkout db workoutId userId).1 = .ok ()) := by
  refine ⟨?_, ?_, ?_⟩
  · intro h
    constructor
    · simp [updateWorkout, h]
    · simp [deleteWorkout, h]
  · intro w hw hne
    have hbne : (w.userId != userId) = true := by
      simp [hne]
    constructor
    · simp [updateWorkout, hw, hbne]
    · simp [deleteWorkout, hw, hbne]
  · intro w hw heq
    have hbeq : (w.userId != userId) = false := by
      simp [heq]
    constructor
    · intro e he
      rw [updateWorkout] at he
      rw [hw] at he
      simp only [hbeq, Bool.false_eq_true, if_false] at he
      by_cases hex : ((u.exercises.getD []) ≠ [] &&
          !(exercisesAllFound exDb (u.exercises.getD []))) = true
      · rw [if_pos hex] at he
        simp at he
        subst he
        constructor <;> simp
      · rw [if_neg hex] at he
        rcases hsave : saveWorkout (applyUpdate w u) with e2 | w2
        · rw [hsave] at he
          simp at he
          subst he
          rcases hmsg : workoutSchemaErrors (normalizeWorkout (applyUpdate w u)) with _ | ⟨m, ms⟩
          · rw [saveWorkout, hmsg] at hsave
            simp at hsave
          · rw [saveWorkout, hmsg] at hsave
            simp at hsave
            subst hsave
            constructor <;> simp
        · rw [hsave] at he
          simp at he
    · simp [deleteWorkout, hw, hbeq]

/-- Witness for C2: user 9 does not own workout 1 of the example
collection, so update and delete both yield `Forbidden` and leave the
collection unchanged. -/
theorem workoutMutation_auth_order_witness :
    updateWorkout exampleExerciseDb exampleWorkouts 1 exampleEmptyUpdate 9 =
      (.error (.forbidden "Unauthorized to update this workout"), exampleWorkouts) ∧
    deleteWorkout exampleWorkouts 1 9 =
      (.error (.forbidden "Unauthorized to delete this workout"), exampleWorkouts) :=
  (workoutMutation_auth_order exampleExerciseDb exampleWorkouts 1
    exampleEmptyUpdate 9).2.1 wCompletedA (by decide) (by decide)

/-- Claim C3: token verification fails with kind `Unauthorized` in the
three sub-cases — missing token, expired token (now at or past issue+TTL),
malformed token or bad signature — each with its own terse message, and a
well-formed token signed with the access secret verifies at any time
strictly before issue+TTL, attaching the subject id. -/
theorem authMiddleware_classification (decode : String → JwtToken)
    (secret : String) (now : Int) (header : Option String) :
    (header = none →
      authMiddleware decode secret now header =
        .error (.unauthorized "No token provided, authorization denied")) ∧
    (∀ h tok, header = some h → jsSplitSpace h = ["Bearer", tok] → tok ≠ "" →
      (decode tok = .malformed →
        authMiddleware decode secret now header =
          .error (.unauthorized "Invalid token")) ∧
      (∀ s uid iat ttl, decode tok = .wellFormed s uid iat ttl → s ≠ secret →
        authMiddleware decode secret now header =
          .error (.unauthorized "Invalid token")) ∧
      (∀ uid iat ttl, decode tok = .wellFormed secret uid iat ttl →
        iat + ttl ≤ now →
        authMiddleware decode secret now header =
          .error (.unauthorized "Token has expired")) ∧
      (∀ uid iat ttl, decode tok = .wellFormed secret uid iat ttl →
        now < iat + ttl →
        authMiddleware decode secret now header = .ok uid)) ∧
    (("No token provided, authorization denied" : String) ≠ "Token has expired" ∧
      ("No token provided, authorization denied" : String) ≠ "Invalid token" ∧
      ("Token has expired" : String) ≠ "Invalid token") ∧
    (∀ e, authMiddleware decode secret now header = .error e →
      e.statusCode = 401) := by
  refine ⟨?_, ?_, ⟨by decide, by decide, by decide⟩, ?_⟩
  · intro h
    subst h
    rfl
  · intro h tok hh hsplit htok
    subst hh
    refine ⟨?_, ?_, ?_, ?_⟩
    · intro hdec
      simp [authMiddleware, hsplit, htok, hdec, jwtVerify]
    · intro s uid iat ttl hdec hs
      simp [authMiddleware, hsplit, htok, hdec, jwtVerify, hs]
    · intro uid iat ttl hdec hexp
      simp [authMiddleware, hsplit, htok, hdec, jwtVerify, hexp]
    · intro uid iat ttl hdec hfresh
      simp [authMiddleware, hsplit, htok, hdec, jwtVerify,
        not_le.mpr hfresh]
  · intro e he
    rcases header with _ | h
    · simp only [authMiddleware] at he
      cases he
      rfl
    · simp only [authMiddleware] at he
      split at he
      · cases he
        rfl
      · split at he
        · cases he
          rfl
        · split at he
          · cases he
            rfl
          · cases he
            rfl
          · cases he

/-- Witness for C3: a well-formed token signed with the access secret,
verified before its expiry, attaches subject 42. -/
theorem authMiddleware_classification_witness :
    authMiddleware exampleDecode "access-secret" 120 (some "Bearer tok1") = .ok 42 :=
  ((authMiddleware_classification exampleDecode "access-secret" 120
      (some "Bearer tok1")).2.1 "Bearer tok1" "tok1" rfl (by decide)
      (by decide)).2.2.2 42 100 60 (by decide) (by decide)

theorem runAuthAttempts_all_fail (p : RateLimitPolicy) (ws : Int)
    (attempts : List (Int × Bool)) (c : Nat)
    (hw : ∀ a ∈ attempts, ws ≤ a.1 ∧ a.1 < ws + p.windowMs)
    (hf : ∀ a ∈ attempts, a.2 = false) :
    (runAuthAttempts p ⟨ws, c⟩ attempts).1 =
      (List.range attempts.length).map
        (fun i => if c + i < p.maxRequests then ⟨true, true, false⟩
          else ⟨false, false, false⟩) := by
  induction attempts generalizing c with
  | nil => rfl
  | cons a rest ih =>
    rcases a with ⟨t, s⟩
    have hs : s = false := hf (t, s) (List.mem_cons_self _ _)
    subst hs
    have ht := hw (t, false) (List.mem_cons_self _ _)
    have hreset : ¬ (ws + p.windowMs ≤ t) := by omega
    have hw2 : ∀ a ∈ rest, ws ≤ a.1 ∧ a.1 < ws + p.windowMs :=
      fun a ha => hw a (List.mem_cons_of_mem _ ha)
    have hf2 : ∀ a ∈ rest, a.2 = false :=
      fun a ha => hf a (List.mem_cons_of_mem _ ha)
    have hshift : ((List.range rest.length).map
        (fun i => if c + 1 + i < p.maxRequests then (⟨true, true, false⟩ : AttemptOutcome)
          else ⟨false, false, false⟩)) =
        ((List.range rest.length).map
        (fun i => if c + (i + 1) < p.maxRequests then (⟨true, true, false⟩ : AttemptOutcome)
          else ⟨false, false, false⟩)) := by
      apply List.map_congr_left
      intro i _
      have h3 : c + 1 + i = c + (i + 1) := by omega
      rw [h3]
    by_cases hc : p.maxRequests < c + 1
    · have hcc : ¬ (c + 0 < p.maxRequests) := by omega
      simp only [runAuthAttempts, rateLimitStep, if_neg hreset, if_pos hc,
        List.length_cons, List.range_succ_eq_map, List.map_cons, List.map_map,
        Function.comp_def, ih (c + 1) hw2 hf2]
      rw [if_neg hcc]
      exact congrArg _ hshift
    · have hcc : c + 0 < p.maxRequests := by omega
      simp only [runAuthAttempts, rateLimitStep, if_neg hreset, if_neg hc,
        Bool.false_eq_true, if_false, List.length_cons, List.range_succ_eq_map,
        List.map_cons, List.map_map, Function.comp_def, ih (c + 1) hw2 hf2]
      rw [if_pos hcc]
      exact congrArg _ hshift

theorem runAuthAttempts_all_succeed (p : RateLimitPolicy) (ws : Int)
    (attempts : List (Int × Bool)) (hmax : 1 ≤ p.maxRequests)
    (hw : ∀ a ∈ attempts, ws ≤ a.1 ∧ a.1 < ws + p.windowMs)
    (hs : ∀ a ∈ attempts, a.2 = true) :
    (runAuthAttempts p ⟨ws, 0⟩ attempts).1 =
      List.replicate attempts.length ⟨true, true, true⟩ := by
  induction attempts with
  | nil => rfl
  | cons a rest ih =>
    rcases a with ⟨t, s⟩
    have hst : s = true := hs (t, s) (List.mem_cons_self _ _)
    subst hst
    have ht := hw (t, true) (List.mem_cons_self _ _)
    have hreset : ¬ (ws + p.windowMs ≤ t) := by omega
    have hc : ¬ (p.maxRequests < 0 + 1) := by omega
    have ihr := ih (fun a ha => hw a (List.mem_cons_of_mem _ ha))
      (fun a ha => hs a (List.mem_cons_of_mem _ ha))
    simp only [runAuthAttempts, rateLimitStep, if_neg hreset, if_neg hc]
    simp [ihr, List.replicate_succ]

/-- Claim C4: within one rate-limit window with ceiling L, if none of the
authentication attempts succeed then exactly the first L are permitted and
all later ones are denied with the underlying operation never executed;
and attempts that would all succeed are never counted, so none of them is
ever denied. -/
theorem authRateLimiter_budget (p : RateLimitPolicy) (ws : Int)
    (attempts : List (Int × Bool))
    (hw : ∀ a ∈ attempts, ws ≤ a.1 ∧ a.1 < ws + p.windowMs) :
    ((∀ a ∈ attempts, a.2 = false) →
      (runAuthAttempts p ⟨ws, 0⟩ attempts).1 =
        (List.range attempts.length).map
          (fun i => if i < p.maxRequests then ⟨true, true, false⟩
            else ⟨false, false, false⟩)) ∧
    (1 ≤ p.maxRequests → (∀ a ∈ attempts, a.2 = true) →
      (runAuthAttempts p ⟨ws, 0⟩ attempts).1 =
        List.replicate attempts.length ⟨true, true, true⟩) := by
  constructor
  · intro hf
    have h := runAuthAttempts_all_fail p ws attempts 0 hw hf
    simpa using h
  · intro hmax hs
    exact runAuthAttempts_all_succeed p ws attempts hmax hw hs

/-- Witness for C4: seven failing login attempts inside one window of the
auth policy (ceiling 5): the first five are permitted and executed, the
last two denied and never executed. -/
theorem authRateLimiter_budget_witness :
    (runAuthAttempts authRateLimiterPolicy ⟨0, 0⟩
        [(0, false), (1, false), (2, false), (3, false), (4, false),
         (5, false), (6, false)]).1 =
      [⟨true, true, false⟩, ⟨true, true, false⟩, ⟨true, true, false⟩,
       ⟨true, true, false⟩, ⟨true, true, false⟩, ⟨false, false, false⟩,
       ⟨false, false, false⟩] :=
  ((authRateLimiter_budget authRateLimiterPolicy 0
      [(0, false), (1, false), (2, false), (3, false), (4, false),
       (5, false), (6, false)] (by decide)).1 (by decide)).trans (by decide)

/-- Claim C5 (code bug): in a production configuration whose
`JWT_REFRESH_SECRET` is explicitly set to its development default value,
startup succeeds — `validateConfig` compares only the access secret against
its default — although the spec requires the system to refuse to start when
either secret is left at its development default.  (The access-secret
default and unset secrets are rejected as specified; the refresh default is
the uncovered case.) -/
theorem startupConfig_accepts_default_refresh_secret :
    startupConfig
        { nodeEnv := some "production"
          jwtSecret := some "a-rotated-production-secret"
          jwtRefreshSecret := some developmentRefreshSecretDefault
          mongodbUri := some "mongodb://prod-db/fitness" } =
      .ok ⟨"a-rotated-production-secret", developmentRefreshSecretDefault⟩ := by
  rfl

theorem findChallenge_replace (db : List SocialChallenge) (cid : Nat)
    (c : SocialChallenge) (hc : findChallenge db cid = some c)
    (c2 : SocialChallenge) (h2 : (c2.id == cid) = true) :
    findChallenge (db.map (fun x => if x.id == cid then c2 else x)) cid =
      some c2 := by
  induction db with
  | nil => simp [findChallenge] at hc
  | cons x xs ih =>
    by_cases hx : (x.id == cid) = true
    · rw [List.map_cons, if_pos hx, findChallenge, List.find?_cons, h2]
    · have hx2 : (x.id == cid) = false := by simpa using hx
      rw [findChallenge, List.find?_cons, hx2] at hc
      have hc3 : findChallenge xs cid = some c := hc
      rw [List.map_cons, if_neg hx, findChallenge, List.find?_cons, hx2]
      exact ih hc3

/-- Claim C6 counterexample: with user 7 already a participant of
challenge 1, the duplicate join responds with HTTP 400 — the BadRequest
status — and not with 409, the status of the taxonomy's Conflict kind,
so the duplicate join does not fail with kind Conflict as claimed. -/
theorem joinChallenge_duplicate_not_conflict :
    (joinChallenge exampleChallenges (some 1) 7).1 =
      ⟨400, "User already joined this challenge"⟩ ∧
    (joinChallenge exampleChallenges (some 1) 7).1.status ≠
      (AppError.conflict "Resource conflict").statusCode := by
  constructor
  · rfl
  · decide

/-- Claim C6 amended: joining a challenge the subject already participates
in fails with the BadRequest kind (HTTP 400, message `'User already joined
this challenge'`) — not Conflict/409, not a silent no-op and not a crash —
and leaves the collection unchanged; two successive joins by the same
subject yield success then that 400 error and record exactly one
participation; the Challenge entity's `addParticipant` likewise refuses a
duplicate, returning `false` with the participant list untouched. -/
theorem joinChallenge_duplicate_badRequest (db : List SocialChallenge)
    (cid : Nat) (c : SocialChallenge) (userId : Nat)
    (hc : findChallenge db cid = some c) :
    (userId ∈ c.participants →
      joinChallenge db (some cid) userId =
        (⟨400, "User already joined this challenge"⟩, db)) ∧
    (userId ∉ c.participants →
      (joinChallenge db (some cid) userId).1 =
        ⟨200, "Joined challenge successfully"⟩ ∧
      findChallenge (joinChallenge db (some cid) userId).2 cid =
        some { c with participants := c.participants ++ [userId] } ∧
      (c.participants ++ [userId]).count userId = 1 ∧
      joinChallenge (joinChallenge db (some cid) userId).2 (some cid) userId =
        (⟨400, "User already joined this challenge"⟩,
         (joinChallenge db (some cid) userId).2)) ∧
    ((addParticipant c.participants userId).1 = false ↔
      userId ∈ c.participants) := by
  have hc2 : db.find? (fun x => x.id == cid) = some c := hc
  have hid := List.find?_some hc2
  refine ⟨?_, ?_, ?_⟩
  · intro hmem
    simp [joinChallenge, hc, hmem]
  · intro hmem
    have hres : (joinChallenge db (some cid) userId).2 =
        db.map (fun x => if x.id == cid then
          { c with participants := c.participants ++ [userId] } else x) := by
      simp [joinChallenge, hc, hmem]
    have hfind2 := findChallenge_replace db cid c hc
      { c with participants := c.participants ++ [userId] } hid
    have hmem2 : userId ∈ c.participants ++ [userId] :=
      List.mem_append_right _ (List.mem_singleton_self _)
    refine ⟨by simp [joinChallenge, hc, hmem], ?_, ?_, ?_⟩
    · rw [hres]
      exact hfind2
    · rw [List.count_append, List.count_eq_zero_of_not_mem hmem]
      simp
    · rw [hres]
      have hfind3 := hfind2
      simp only [beq_iff_eq] at hfind3
      simp [joinChallenge, hfind3, hmem2]
  · constructor
    · intro hfalse
      by_contra hnot
      simp [addParticipant, hnot] at hfalse
    · intro hmem
      simp [addParticipant, hmem]

/-- Witness for C6 (amended): on a fresh challenge, joining twice yields
200 then the 400 duplicate error. -/
theorem joinChallenge_duplicate_badRequest_witness :
    (joinChallenge exampleFreshChallenges (some 2) 7).1 =
      ⟨200, "Joined challenge successfully"⟩ :=
  ((joinChallenge_duplicate_badRequest exampleFreshChallenges 2
      ⟨2, "Plank Month", "", []⟩ 7 (by decide)).2.1 (by decide)).1

/-- Claim C7: workout-creation validation is exhaustive — every violated
rule contributes its own field error, independently of the other fields —
and a request with duration 2000 fails with `ValidationFailed` carrying a
field error on `duration`, with no workout persisted. -/
theorem validateCreateWorkout_exhaustive (r : CreateWorkoutReq) :
    ((jsTrim (r.title.getD "")).length < 3 ∨ 100 < (jsTrim (r.title.getD "")).length →
      (⟨"title", "Title must be between 3 and 100 characters"⟩ : FieldError) ∈
        validateCreateWorkout r) ∧
    (∀ d, r.description = some d → 500 < (jsTrim d).length →
      (⟨"description", "Description must be less than 500 characters"⟩ : FieldError) ∈
        validateCreateWorkout r) ∧
    (∀ es, r.exercises = some es → es = [] →
      (⟨"exercises", "At least one exercise is required"⟩ : FieldError) ∈
        validateCreateWorkout r) ∧
    (∀ es, r.exercises = some es → ¬ (es.all (fun i => i.length == 24) = true) →
      (⟨"exercises", "All exercise IDs must be valid MongoDB ObjectIds"⟩ : FieldError) ∈
        validateCreateWorkout r) ∧
    (∀ d, r.duration = some d → (d < 0 ∨ 1440 < d) →
      (⟨"duration", "Duration must be between 0 and 1440 minutes"⟩ : FieldError) ∈
        validateCreateWorkout r) ∧
    (∀ cal, r.caloriesBurned = some cal → (cal < 0 ∨ 10000 < cal) →
      (⟨"caloriesBurned", "Calories burned must be between 0 and 10000"⟩ : FieldError) ∈
        validateCreateWorkout r) ∧
    (r.date = some .notIso →
      (⟨"date", "Date must be a valid ISO 8601 date"⟩ : FieldError) ∈
        validateCreateWorkout r) ∧
    (∀ exDb db userId newId now, r.duration = some 2000 →
      ∃ es, postCreateWorkout exDb db r userId newId now =
          (.error (.validationFailed "Validation failed" es), db) ∧
        (⟨"duration", "Duration must be between 0 and 1440 minutes"⟩ : FieldError) ∈ es) := by
  have hdur : ∀ d, r.duration = some d → (d < 0 ∨ 1440 < d) →
      (⟨"duration", "Duration must be between 0 and 1440 minutes"⟩ : FieldError) ∈
        validateCreateWorkout r := by
    intro d hd hv
    simp only [validateCreateWorkout, List.mem_append]
    refine Or.inl (Or.inl (Or.inr ?_))
    rcases hv with hv | hv <;> simp [durationRuleErrors, hd, hv]
  refine ⟨?_, ?_, ?_, ?_, hdur, ?_, ?_, ?_⟩
  · intro hv
    simp only [validateCreateWorkout, List.mem_append]
    refine Or.inl (Or.inl (Or.inl (Or.inl (Or.inl ?_))))
    rcases hv with hv | hv <;> simp [titleRuleErrors, hv]
  · intro d hd hv
    simp only [validateCreateWorkout, List.mem_append]
    refine Or.inl (Or.inl (Or.inl (Or.inl (Or.inr ?_))))
    simp [descriptionRuleErrors, hd, hv]
  · intro es hes hnil
    simp only [validateCreateWorkout, List.mem_append]
    refine Or.inl (Or.inl (Or.inl (Or.inr ?_)))
    subst hnil
    simp [exercisesRuleErrors, hes]
  · intro es hes hbad
    simp only [validateCreateWorkout, List.mem_append]
    refine Or.inl (Or.inl (Or.inl (Or.inr ?_)))
    simp [exercisesRuleErrors, hes, hbad]
  · intro cal hc hv
    simp only [validateCreateWorkout, List.mem_append]
    refine Or.inl (Or.inr ?_)
    rcases hv with hv | hv <;> simp [caloriesRuleErrors, hc, hv]
  · intro hd
    simp only [validateCreateWorkout, List.mem_append]
    refine Or.inr ?_
    simp [dateRuleErrors, hd]
  · intro exDb db userId newId now h2000
    have hin := hdur 2000 h2000 (by omega)
    rcases hlist : validateCreateWorkout r with _ | ⟨e, es2⟩
    · rw [hlist] at hin
      cases hin
    · refine ⟨e :: es2, ?_, by rw [← hlist]; exact hin⟩
      simp [postCreateWorkout, handleValidationErrors, hlist]

/-- Witness for C7: the valid example request with its duration overridden
to 2000 is rejected with a field error on `duration` and the collection is
unchanged. -/
theorem validateCreateWorkout_exhaustive_witness :
    ∃ es, postCreateWorkout exampleExerciseDb exampleWorkouts
        { exampleCreateReq with duration := some 2000 } 7 99 0 =
        (.error (.validationFailed "Validation failed" es), exampleWorkouts) ∧
      (⟨"duration", "Duration must be between 0 and 1440 minutes"⟩ : FieldError) ∈ es :=
  (validateCreateWorkout_exhaustive
    { exampleCreateReq with duration := some 2000 }).2.2.2.2.2.2.2
    exampleExerciseDb exampleWorkouts 7 99 0 rfl

/-- Claim C8 counterexample: a subject whose only completed record predates
the Unix epoch gets different statistics from an invalid startDate (with no
endDate) than from no range at all — the invalid bound reaches the server
as the epoch timestamp 0 and filters the record out, so it is not treated
as unbounded. -/
theorem getWorkoutStats_invalid_bound_counterexample :
    getWorkoutStats [preEpochWorkout] 7 (some .invalid) none ≠
      getWorkoutStats [preEpochWorkout] 7 none none := by
  decide

/-- Claim C8 amended: a missing (or empty) date-range bound adds no
constraint on that side and an invalid bound never produces a validation
error (the stats route runs no date validation at all); but an invalid
bound is serialized as the epoch timestamp 0 rather than dropped, so an
invalid startDate behaves as an explicit epoch lower bound, agreeing with
the unbounded query exactly when every stored record is dated at or after
the epoch. -/
theorem getWorkoutStats_bound_semantics (db : List StoredWorkout)
    (userId : Nat) :
    getWorkoutStats db userId (some .invalid) none =
      getWorkoutStats db userId (some (.valid 0)) none ∧
    ((∀ w ∈ db, 0 ≤ w.date) →
      getWorkoutStats db userId (some .invalid) none =
        getWorkoutStats db userId none none) := by
  constructor
  · rfl
  · intro h
    have hfeq : db.filter (matchStage userId (some .invalid) none) =
        db.filter (matchStage userId none none) := by
      apply List.filter_congr
      intro w hw
      have hwd := h w hw
      simp [matchStage, JsDate.bsonMs, hwd]
    simp [getWorkoutStats, hfeq]

/-- Witness for C8 (amended): on the example collection, whose records are
all dated at or after the epoch, an invalid startDate yields the same
result as no range. -/
theorem getWorkoutStats_bound_semantics_witness :
    getWorkoutStats exampleWorkouts 7 (some .invalid) none =
      getWorkoutStats exampleWorkouts 7 none none :=
  (getWorkoutStats_bound_semantics exampleWorkouts 7).2 (by decide)

/-- Claim C9: the stored password hash is absent from the user document's
JSON serialization (the toJSON transform deletes it) and from the user
objects returned by login and registration. -/
theorem password_never_serialized (u : UserDoc) :
    "password" ∉ (userToJSON u).map Prod.fst ∧
    (∀ db hashCheck secret ttl now username password obj tok,
      loginUser db hashCheck secret ttl now username password = .ok (obj, tok) →
      "password" ∉ obj.map Prod.fst) ∧
    (∀ db hash secret ttl now newId username email password obj tok db2,
      registerUser db hash secret ttl now newId username email password =
        .ok (obj, tok, db2) →
      "password" ∉ obj.map Prod.fst) := by
  refine ⟨?_, ?_, ?_⟩
  · simp [userToJSON, userRawObject]
  · intro db hashCheck secret ttl now username password obj tok h
    rw [loginUser] at h
    rcases hfind : findByEmailOrUsername db username with _ | user
    · rw [hfind] at h
      cases h
    · rw [hfind] at h
      split at h
      · cases h
      · split at h
        · cases h
        · split at h
          · cases h
          · simp only [Except.ok.injEq, Prod.mk.injEq] at h
            rcases h with ⟨hobj, -⟩
            rw [← hobj]
            simp [loginUserObject]
  · intro db hash secret ttl now newId username email password obj tok db2 h
    rw [registerUser] at h
    split at h
    · cases h
    · split at h
      · cases h
      · simp only [Except.ok.injEq, Prod.mk.injEq] at h
        rcases h with ⟨hobj, -⟩
        rw [← hobj]
        simp [registerUserObject]

/-- Witness for C9: a concrete successful login returns a user object
without a password key. -/
theorem password_never_serialized_witness :
    "password" ∉
      (loginUserObject { exampleUser with lastLogin := some 5 }).map Prod.fst :=
  (password_never_serialized exampleUser).2.1 [exampleUser]
    (fun p h => h == p ++ "-1") "access-secret" 60 5 "alice" "hashed-pw"
    (loginUserObject { exampleUser with lastLogin := some 5 })
    (.wellFormed "access-secret" 1 5 60) (by rfl)

theorem matchStage_none_none_eq (userId : Nat) (w : StoredWorkout) :
    matchStage userId none none w =
      (w.userId == userId && w.status == WorkoutStatus.completed) := by
  simp [matchStage]

theorem saveWorkout_ok_fields (w w2 : StoredWorkout)
    (h : saveWorkout w = .ok w2) : w2 = normalizeWorkout w := by
  rw [saveWorkout] at h
  rcases hm : workoutSchemaErrors (normalizeWorkout w) with _ | ⟨m, ms⟩
  · rw [hm] at h
    cases h
    rfl
  · rw [hm] at h
    cases h

/-- Claim C10: every workout the create operation produces has status
`planned` — a client-supplied status (`completed` included) is ignored —
and consequently appending a just-created workout to any collection leaves
every subject's statistics unchanged. -/
theorem createWorkout_status_planned (exDb : List ExerciseDoc)
    (db : List StoredWorkout) (workoutData : CreateWorkoutReq)
    (userId newId : Nat) (now : Int) (w : StoredWorkout)
    (h : (createWorkout exDb db workoutData userId newId now).1 = .ok w) :
    w.status = .planned ∧
    ∀ (db2 : List StoredWorkout) (u2 : Nat),
      getWorkoutStats (db2 ++ [w]) u2 none none =
        getWorkoutStats db2 u2 none none := by
  have hst : w.status = .planned := by
    rw [createWorkout] at h
    split at h
    · cases h
    · split at h
      · cases h
      · split at h
        · dsimp only at h
          split at h
          · rename_i hsave
            cases h
            rw [saveWorkout_ok_fields _ _ hsave]
            rfl
          · cases h
        · dsimp only at h
          split at h
          · rename_i hsave
            cases h
            rw [saveWorkout_ok_fields _ _ hsave]
            rfl
          · cases h
  refine ⟨hst, ?_⟩
  intro db2 u2
  have hfw : matchStage u2 none none w = false := by
    rw [matchStage_none_none_eq, hst]
    simp
  have hfeq : (db2 ++ [w]).filter (matchStage u2 none none) =
      db2.filter (matchStage u2 none none) := by
    rw [List.filter_append]
    simp [List.filter, hfw]
  simp [getWorkoutStats, hfeq]

/-- Witness for C10: creating from a request that asks for status
`completed` still yields a `planned` workout. -/
theorem createWorkout_status_planned_witness :
    (createWorkout exampleExerciseDb exampleWorkouts exampleCreateReq
        7 99 0).1 = .ok createdExampleWorkout ∧
      createdExampleWorkout.status = .planned :=
  ⟨rfl, (createWorkout_status_planned exampleExerciseDb exampleWorkouts
    exampleCreateReq 7 99 0 createdExampleWorkout rfl).1⟩
